import Mathlib

/-!
Shallow embedding of the Mermaid transpiler and validator of
src/src/lib/flowchartStorage.ts (functions convertToMermaid, sanitizeNodeId,
getNodeLabel, getMermaidShape, escapeLabel, createMermaidConnection,
getDecisionEdgeLabel, validateFlowchartForMermaid).

Modelling conventions: the untyped attribute bag of a ReactFlow node is a
record of optional string fields (an absent data object behaves as a record
whose fields are all absent, which is observationally identical through the
optional-chaining accesses of the source); JavaScript truthiness of a
possibly-undefined string is the predicate jsTruthy; string indices count
characters.
-/

namespace Flowchart

/-- Attribute bag of a node (source: the untyped data record; only the
fields the transpiler and validator read are modelled). -/
structure NodeData where
  label : Option String := none
  nodeType : Option String := none
  yesLabel : Option String := none
  noLabel : Option String := none
deriving DecidableEq

/-- A ReactFlow node as consumed by the transpiler: identifier, optional
type tag, attribute bag. -/
structure FlowNode where
  id : String
  type : Option String := none
  data : NodeData := {}
deriving DecidableEq

/-- A ReactFlow edge: source and target identifiers, optional label,
optional source-handle tag. -/
structure FlowEdge where
  source : String
  target : String
  label : Option String := none
  sourceHandle : Option String := none
deriving DecidableEq

/-- Metadata record (title, description), both optional. -/
structure FlowchartMetadata where
  title : Option String := none
  description : Option String := none
deriving DecidableEq

/-- Conversion options, with the default values the source destructures. -/
structure MermaidConversionOptions where
  includeTitle : Bool := true
  includeDescription : Bool := true
  direction : String := "TD"
  theme : Option String := none
deriving DecidableEq

/-- JavaScript truthiness of a possibly-undefined string: defined and
non-empty. -/
def jsTruthy : Option String → Bool
  | some s => s != ""
  | none => false

/-- JavaScript `o || d` for a possibly-undefined string `o` and a string
default `d`. -/
def jsOr (o : Option String) (d : String) : String :=
  if jsTruthy o then o.getD "" else d

/-- The double-quote character. -/
def quoteChar : Char := Char.ofNat 34

/-- The apostrophe character. -/
def aposChar : Char := Char.ofNat 39

/-- The apostrophe as a one-character string. -/
def aposStr : String := String.singleton aposChar

/-- Character class `[a-zA-Z0-9_]` of the sanitization regex. -/
def isWordChar (c : Char) : Bool :=
  c.isAlpha || c.isDigit || c == '_'

/-- Per-character action of `id.replace(/[^a-zA-Z0-9_]/g, "_")`. -/
def sanitizeChar (c : Char) : Char :=
  if isWordChar c then c else '_'

/-- sanitizeNodeId (flowchartStorage.ts lines 560-564): replace every
character outside the word class with an underscore, then prefix with
"node_" unless the result starts with an ASCII letter. -/
def sanitizeNodeId (id : String) : String :=
  let sanitized := String.mk (id.data.map sanitizeChar)
  if (sanitized.data.head?.map Char.isAlpha).getD false then sanitized
  else "node_" ++ sanitized

/-- getNodeLabel (lines 569-592): the label attribute when truthy, else a
fallback chosen by the node type tag. -/
def getNodeLabel (node : FlowNode) : String :=
  if jsTruthy node.data.label then node.data.label.getD ""
  else
    match node.type with
    | some "startNode" =>
        if node.data.nodeType == some "end" then "End" else "Start"
    | some "endNode" => "End"
    | some "processNode" => "Process"
    | some "decisionNode" => "Decision?"
    | some "connectorNode" => jsOr node.data.label "•"
    | _ => "Node"

/-- Per-character form of escapeLabel: the source applies four global
single-character replacements in sequence; none of the replacement strings
contains any of the four replaced characters, so the sequence of global
replacements acts independently on each character of the input. -/
def escapeChar (c : Char) : List Char :=
  if c == quoteChar then ['#', 'q', 'u', 'o', 't', ';']
  else if c == aposChar then ['#', 'a', 'p', 'o', 's', ';']
  else if c == '\n' then ['<', 'b', 'r', '/', '>']
  else if c == '\r' then []
  else [c]

/-- Whitespace trimming of a character list from both ends, the pure form
of the trailing .trim() of escapeLabel. -/
def trimChars (l : List Char) : List Char :=
  ((l.dropWhile Char.isWhitespace).reverse.dropWhile Char.isWhitespace).reverse

/-- escapeLabel (lines 619-627): quote to an escaped-quote entity,
apostrophe to an escaped-apostrophe entity, newline to a line-break tag,
carriage return removed, then trim. -/
def escapeLabel (label : String) : String :=
  String.mk (trimChars ((label.data.map escapeChar).flatten))

/-- getMermaidShape (lines 597-614) together with the shape table
MERMAID_NODE_SHAPES (lines 457-463). -/
def getMermaidShape (nodeType : Option String) (label : String) : String :=
  let escapedLabel := escapeLabel label
  match nodeType with
  | some "startNode" => "([" ++ escapedLabel ++ "])"
  | some "endNode" => "([" ++ escapedLabel ++ "])"
  | some "processNode" => "[" ++ escapedLabel ++ "]"
  | some "decisionNode" => "\x7b" ++ escapedLabel ++ "\x7d"
  | some "connectorNode" =>
      "((" ++ (if escapedLabel != "" then escapedLabel else "•") ++ "))"
  | _ => "[" ++ escapedLabel ++ "]"

/-- getDecisionEdgeLabel (lines 662-673). -/
def getDecisionEdgeLabel (edge : FlowEdge) (sourceNode : FlowNode) :
    Option String :=
  if edge.sourceHandle == some "decision-yes" then
    some (jsOr sourceNode.data.yesLabel "Yes")
  else if edge.sourceHandle == some "decision-no" then
    some (jsOr sourceNode.data.noLabel "No")
  else none

/-- The non-decision tail of createMermaidConnection (lines 649-656): a
truthy edge label is escaped and embedded between pipes, otherwise a bare
arrow. -/
def regularConnection (edge : FlowEdge) (sourceId targetId : String) :
    String :=
  if jsTruthy edge.label then
    sourceId ++ " -->|" ++ escapeLabel (edge.label.getD "") ++ "| " ++ targetId
  else
    sourceId ++ " --> " ++ targetId

/-- createMermaidConnection (lines 632-657): a decision source node with a
truthy resolved branch label yields a labeled arrow with that label
embedded verbatim; every other case falls through to regularConnection. -/
def createMermaidConnection (edge : FlowEdge) (sourceId targetId : String)
    (nodes : List FlowNode) : String :=
  match nodes.find? (fun node => node.id == edge.source) with
  | some sourceNode =>
      if sourceNode.type == some "decisionNode" then
        match getDecisionEdgeLabel edge sourceNode with
        | some edgeLabel =>
            if edgeLabel != "" then
              sourceId ++ " -->|" ++ edgeLabel ++ "| " ++ targetId
            else regularConnection edge sourceId targetId
        | none => regularConnection edge sourceId targetId
      else regularConnection edge sourceId targetId
  | none => regularConnection edge sourceId targetId

/-- One node-definition line (line 521), without its trailing newline. -/
def nodeDefinition (node : FlowNode) : String :=
  "    " ++ sanitizeNodeId node.id ++ getMermaidShape node.type (getNodeLabel node)

/-- Insertion into the JavaScript Set of definition lines: appended only
when not already present, preserving first-seen order. -/
def addUnique (l : List String) (s : String) : List String :=
  if l.contains s then l else l ++ [s]

/-- The deduplicated node-definition lines in first-seen order (lines
510-527). -/
def nodeDefinitions (nodes : List FlowNode) : List String :=
  nodes.foldl (fun acc node => addUnique acc (nodeDefinition node)) []

/-- Lookup in the nodeIdMap of lines 511-516: the map sends every node
identifier to its sanitized form, so a get returns the sanitized identifier
exactly when some node carries that identifier. -/
def nodeIdLookup (nodes : List FlowNode) (id : String) : Option String :=
  if nodes.any (fun node => node.id == id) then some (sanitizeNodeId id)
  else none

/-- One emitted edge line with its trailing newline (lines 533-541), none
when the truthiness guard on the two looked-up identifiers fails. -/
def edgeLine (nodes : List FlowNode) (edge : FlowEdge) : Option String :=
  let sourceId := nodeIdLookup nodes edge.source
  let targetId := nodeIdLookup nodes edge.target
  if jsTruthy sourceId && jsTruthy targetId then
    some ("    " ++
      createMermaidConnection edge (sourceId.getD "") (targetId.getD "") nodes
      ++ "\n")
  else none

/-- The theme directive of line 551. -/
def themeDirective (theme : String) : String :=
  "\n%%\x7binit: \x7b" ++ aposStr ++ "theme" ++ aposStr ++ ":" ++ aposStr
    ++ theme ++ aposStr ++ "\x7d\x7d%%\n"

/-- convertToMermaid (lines 482-555). -/
def convertToMermaid (nodes : List FlowNode) (edges : List FlowEdge)
    (metadata : FlowchartMetadata) (options : MermaidConversionOptions) :
    String :=
  let header := "flowchart " ++ options.direction ++ "\n"
  let mermaidCode :=
    if options.includeTitle && jsTruthy metadata.title then
      "---\ntitle: " ++ metadata.title.getD "" ++ "\n---\n" ++ header
    else header
  if nodes.length == 0 then mermaidCode ++ "    %% Empty flowchart\n"
  else
    let withNodes :=
      mermaidCode ++ String.join ((nodeDefinitions nodes).map (fun d => d ++ "\n"))
    let withEdges :=
      if edges.length > 0 then
        withNodes ++ "\n" ++ String.join (edges.filterMap (edgeLine nodes))
      else withNodes
    let withDescription :=
      if options.includeDescription && jsTruthy metadata.description then
        withEdges ++ "\n    %% " ++ metadata.description.getD "" ++ "\n"
      else withEdges
    if jsTruthy options.theme then
      withDescription ++ themeDirective (options.theme.getD "")
    else withDescription

/-- Result record of validateFlowchartForMermaid. -/
structure ValidationResult where
  isValid : Bool
  warnings : List String
  errors : List String
deriving DecidableEq

/-- The set of identifiers referenced by any edge endpoint (lines 692-696),
as the list of insertions. -/
def connectedNodeIds (edges : List FlowEdge) : List String :=
  edges.foldl (fun acc edge => acc ++ [edge.source, edge.target]) []

/-- The nodes the validator counts as disconnected (line 698). -/
def disconnectedNodes (nodes : List FlowNode) (edges : List FlowEdge) :
    List FlowNode :=
  nodes.filter (fun node => !((connectedNodeIds edges).contains node.id))

/-- The long-label warning of lines 704-709 for one node, none when the
resolved label has at most 50 characters. -/
def longLabelWarning (node : FlowNode) : Option String :=
  let label := getNodeLabel node
  if label.length > 50 then
    some ("Node \"" ++ node.id ++ "\" has a very long label ("
      ++ toString label.length ++ " characters)")
  else none

/-- validateFlowchartForMermaid (lines 678-722). -/
def validateFlowchartForMermaid (nodes : List FlowNode)
    (edges : List FlowEdge) : ValidationResult :=
  let errors : List String := []
  let emptyWarnings : List String :=
    if nodes.length == 0 then ["Flowchart is empty"] else []
  let disconnectedWarnings : List String :=
    if (disconnectedNodes nodes edges).length > 0 then
      [toString (disconnectedNodes nodes edges).length
        ++ " disconnected node(s) found"]
    else []
  let longWarnings := nodes.filterMap longLabelWarning
  { isValid := errors.length == 0
    warnings := emptyWarnings ++ disconnectedWarnings ++ longWarnings
    errors := errors }

/-- Node categories as the specification enumerates them in its data
model. -/
inductive NodeCategory where
  | startC | endC | processC | decisionC | connectorC | otherC
deriving DecidableEq

/-- Category of a node, following the specification: the start type tag
with an end marker in the attribute bag is the end category, otherwise the
tag picks the category directly and anything unrecognized is the default
category. -/
def nodeCategory (node : FlowNode) : NodeCategory :=
  match node.type with
  | some "startNode" =>
      if node.data.nodeType == some "end" then .endC else .startC
  | some "endNode" => .endC
  | some "processNode" => .processC
  | some "decisionNode" => .decisionC
  | some "connectorNode" => .connectorC
  | _ => .otherC

/-- The per-category fallback labels the specification enumerates. -/
def categoryFallback : NodeCategory → String
  | .startC => "Start"
  | .endC => "End"
  | .processC => "Process"
  | .decisionC => "Decision?"
  | .connectorC => "•"
  | .otherC => "Node"

/-- Label resolution as the specification words it: the non-empty label
attribute when present, otherwise the category fallback. -/
def specResolveLabel (node : FlowNode) : String :=
  if jsTruthy node.data.label then node.data.label.getD ""
  else categoryFallback (nodeCategory node)

/-- Number of (possibly overlapping) occurrences of a pattern in a
character list. -/
def countOcc (pat : List Char) : List Char → Nat
  | [] => 0
  | c :: rest =>
      (if pat.isPrefixOf (c :: rest) then 1 else 0) + countOcc pat rest

/- ## Helper lemmas -/

theorem jsOr_ne_empty (o : Option String) (d : String) (hd : d ≠ "") :
    jsOr o d ≠ "" := by
  unfold jsOr
  split
  · next ht =>
    cases o with
    | none => simp [jsTruthy] at ht
    | some s =>
        simp only [jsTruthy, bne_iff_ne, ne_eq] at ht
        simpa using ht
  · exact hd

theorem data_mk (l : List Char) : (String.mk l).data = l := rfl

theorem sanitizeNodeId_head (id : String) :
    ∃ c rest, (sanitizeNodeId id).data = c :: rest ∧ c.isAlpha = true := by
  simp only [sanitizeNodeId]
  cases h : id.data.map sanitizeChar with
  | nil =>
      exact ⟨'n', ['o', 'd', 'e', '_'], rfl, by decide⟩
  | cons c rest =>
      by_cases hc : c.isAlpha = true
      · refine ⟨c, rest, ?_, hc⟩
        show (if c.isAlpha = true then (⟨c :: rest⟩ : String)
          else "node_" ++ ⟨c :: rest⟩).data = c :: rest
        rw [if_pos hc]
      · refine ⟨'n', 'o' :: 'd' :: 'e' :: '_' :: c :: rest, ?_, by decide⟩
        show (if c.isAlpha = true then (⟨c :: rest⟩ : String)
          else "node_" ++ ⟨c :: rest⟩).data = 'n' :: 'o' :: 'd' :: 'e' :: '_' :: c :: rest
        rw [if_neg hc]
        rfl

theorem sanitizeNodeId_ne_empty (id : String) : sanitizeNodeId id ≠ "" := by
  obtain ⟨c, rest, hdata, -⟩ := sanitizeNodeId_head id
  intro he
  rw [he] at hdata
  exact List.noConfusion hdata

theorem jsTruthy_nodeIdLookup (nodes : List FlowNode) (id : String) :
    jsTruthy (nodeIdLookup nodes id) = nodes.any (fun n => n.id == id) := by
  unfold nodeIdLookup
  split
  · next ha =>
    rw [ha]
    simp only [jsTruthy, bne_iff_ne, ne_eq]
    simp [sanitizeNodeId_ne_empty id]
  · next ha =>
    simp only [jsTruthy]
    exact (Bool.eq_false_iff.mpr ha).symm ▸ rfl

theorem mem_connectedNodeIds_aux (edges : List FlowEdge) (acc : List String)
    (id : String) :
    id ∈ edges.foldl (fun a e => a ++ [e.source, e.target]) acc ↔
      (id ∈ acc ∨ ∃ e ∈ edges, id = e.source ∨ id = e.target) := by
  induction edges generalizing acc with
  | nil => simp
  | cons e rest ih =>
      simp only [List.foldl_cons, ih, List.mem_append, List.mem_cons,
        List.not_mem_nil, or_false, List.mem_cons]
      aesop

theorem mem_connectedNodeIds (edges : List FlowEdge) (id : String) :
    id ∈ connectedNodeIds edges ↔ ∃ e ∈ edges, id = e.source ∨ id = e.target := by
  unfold connectedNodeIds
  rw [mem_connectedNodeIds_aux]
  simp

theorem contains_connectedNodeIds (edges : List FlowEdge) (id : String) :
    (connectedNodeIds edges).contains id =
      edges.any (fun e => e.source == id || e.target == id) := by
  have hmem : (connectedNodeIds edges).contains id = true ↔
      id ∈ connectedNodeIds edges := by
    simp [List.contains, List.elem_iff]
  rcases h : edges.any (fun e => e.source == id || e.target == id) with _ | _
  · simp only [List.any_eq_false] at h
    apply Bool.eq_false_iff.mpr
    intro hc
    rw [hmem, mem_connectedNodeIds] at hc
    obtain ⟨e, he, hs⟩ := hc
    have hne := h e he
    rcases hs with hs | hs <;> simp [hs] at hne
  · simp only [List.any_eq_true] at h
    obtain ⟨e, he, hs⟩ := h
    rw [hmem, mem_connectedNodeIds]
    rcases Bool.or_eq_true_iff.mp hs with hs | hs
    · exact ⟨e, he, Or.inl (beq_iff_eq.mp hs).symm⟩
    · exact ⟨e, he, Or.inr (beq_iff_eq.mp hs).symm⟩

theorem mem_trimChars {c : Char} {l : List Char} (h : c ∈ trimChars l) :
    c ∈ l := by
  unfold trimChars at h
  rw [List.mem_reverse] at h
  have h1 := (List.dropWhile_sublist (l := (l.dropWhile Char.isWhitespace).reverse) Char.isWhitespace).mem h
  rw [List.mem_reverse] at h1
  exact (List.dropWhile_sublist Char.isWhitespace).mem h1

theorem escapeChar_safe (x c : Char) (h : c ∈ escapeChar x) :
    c ≠ quoteChar ∧ c ≠ aposChar ∧ c ≠ '\n' ∧ c ≠ '\r' := by
  unfold escapeChar at h
  by_cases h1 : (x == quoteChar) = true
  · rw [if_pos h1] at h
    fin_cases h <;> decide
  · rw [if_neg h1] at h
    by_cases h2 : (x == aposChar) = true
    · rw [if_pos h2] at h
      fin_cases h <;> decide
    · rw [if_neg h2] at h
      by_cases h3 : (x == '\n') = true
      · rw [if_pos h3] at h
        fin_cases h <;> decide
      · rw [if_neg h3] at h
        by_cases h4 : (x == '\r') = true
        · rw [if_pos h4] at h
          cases h
        · rw [if_neg h4] at h
          rw [List.mem_singleton] at h
          subst h
          exact ⟨fun hh => h1 (beq_iff_eq.mpr hh),
            fun hh => h2 (beq_iff_eq.mpr hh),
            fun hh => h3 (beq_iff_eq.mpr hh),
            fun hh => h4 (beq_iff_eq.mpr hh)⟩

theorem escapeLabel_safe (s : String) (c : Char)
    (h : c ∈ (escapeLabel s).data) :
    c ≠ quoteChar ∧ c ≠ aposChar ∧ c ≠ '\n' ∧ c ≠ '\r' := by
  unfold escapeLabel at h
  rw [data_mk] at h
  have h1 := mem_trimChars h
  rw [List.mem_flatten] at h1
  obtain ⟨piece, hp, hc⟩ := h1
  rw [List.mem_map] at hp
  obtain ⟨x, -, hx⟩ := hp
  exact escapeChar_safe x c (hx ▸ hc)

theorem getNodeLabel_eq_spec (node : FlowNode) :
    getNodeLabel node = specResolveLabel node := by
  unfold getNodeLabel specResolveLabel nodeCategory categoryFallback
  cases hl : jsTruthy node.data.label with
  | true => simp [hl]
  | false =>
      simp only [hl, Bool.false_eq_true, if_false]
      cases ht : node.type with
      | none => rfl
      | some s =>
          split
          · split <;> rfl
          · rfl
          · rfl
          · rfl
          · simp [jsOr, hl]
          · rfl

theorem convertToMermaid_structure (nodes : List FlowNode)
    (edges : List FlowEdge) (md : FlowchartMetadata)
    (opts : MermaidConversionOptions) (h : nodes ≠ []) :
    convertToMermaid nodes edges md opts =
      (if opts.includeTitle && jsTruthy md.title then
        "---\ntitle: " ++ md.title.getD "" ++ "\n---\n"
          ++ ("flowchart " ++ opts.direction ++ "\n")
      else "flowchart " ++ opts.direction ++ "\n")
      ++ String.join ((nodeDefinitions nodes).map (fun d => d ++ "\n"))
      ++ (if edges.length > 0 then
            "\n" ++ String.join (edges.filterMap (edgeLine nodes))
          else "")
      ++ (if opts.includeDescription && jsTruthy md.description then
            "\n    %% " ++ md.description.getD "" ++ "\n"
          else "")
      ++ (if jsTruthy opts.theme then themeDirective (opts.theme.getD "")
          else "") := by
  have hlen : (nodes.length == 0) = false := by
    cases nodes with
    | nil => exact absurd rfl h
    | cons a l => rfl
  simp only [convertToMermaid, hlen, Bool.false_eq_true, if_false]
  split_ifs <;>
    simp [String.append_assoc, String.append_empty]

/- ## Claim theorems -/

/-- C2: for every node, the label string whose length the validator
measures for its long-label warning equals the label string the transpiler
embeds in the shape brackets of the node definition, and both follow the
resolution rule of the specification: the non-empty label attribute when
present, otherwise the fallback of the category of the node. -/
theorem claim_label_resolution_consistency :
    ∀ node : FlowNode,
      getNodeLabel node = specResolveLabel node
      ∧ longLabelWarning node =
          (if (specResolveLabel node).length > 50 then
            some ("Node \"" ++ node.id ++ "\" has a very long label ("
              ++ toString (specResolveLabel node).length ++ " characters)")
          else none)
      ∧ nodeDefinition node =
          "    " ++ sanitizeNodeId node.id
            ++ getMermaidShape node.type (specResolveLabel node) := by
  intro node
  have h := getNodeLabel_eq_spec node
  refine ⟨h, ?_, ?_⟩
  · unfold longLabelWarning
    rw [h]
  · unfold nodeDefinition
    rw [h]

/-- C3: the validator returns its warnings in deterministic order: the
empty warning exactly when the node sequence is empty, then one aggregate
disconnected count exactly when some node is referenced by no edge, then
per-node long-label warnings in node order; isValid is true exactly when
the errors list is empty and the errors list is always empty. -/
theorem claim_validator_report_order :
    ∀ (nodes : List FlowNode) (edges : List FlowEdge),
      (validateFlowchartForMermaid nodes edges).warnings =
        (if nodes = [] then ["Flowchart is empty"] else [])
        ++ (if (nodes.filter (fun n =>
              !(edges.any (fun e => e.source == n.id || e.target == n.id)))).length
                > 0 then
              [toString (nodes.filter (fun n =>
                !(edges.any (fun e => e.source == n.id || e.target == n.id)))).length
                ++ " disconnected node(s) found"]
            else [])
        ++ nodes.filterMap longLabelWarning
      ∧ ((validateFlowchartForMermaid nodes edges).isValid = true ↔
          (validateFlowchartForMermaid nodes edges).errors = [])
      ∧ (validateFlowchartForMermaid nodes edges).errors = [] := by
  intro nodes edges
  have hw : (validateFlowchartForMermaid nodes edges).warnings =
      (if nodes.length == 0 then ["Flowchart is empty"] else [])
      ++ (if (disconnectedNodes nodes edges).length > 0 then
            [toString (disconnectedNodes nodes edges).length
              ++ " disconnected node(s) found"]
          else [])
      ++ nodes.filterMap longLabelWarning := rfl
  have hfilter : disconnectedNodes nodes edges =
      nodes.filter (fun n =>
        !(edges.any (fun e => e.source == n.id || e.target == n.id))) := by
    unfold disconnectedNodes
    apply List.filter_congr
    intro n _
    rw [contains_connectedNodeIds]
  have hempty : (if (nodes.length == 0) then ["Flowchart is empty"]
      else ([] : List String)) =
      (if nodes = [] then ["Flowchart is empty"] else []) := by
    cases nodes <;> rfl
  refine ⟨?_, Iff.intro (fun _ => rfl) (fun _ => rfl), rfl⟩
  rw [hw, hfilter, hempty]

/-- C6: on an empty node sequence the validator returns exactly the single
empty warning with no errors and isValid true, and the transpiler returns
only the optional title front matter, the header line and the placeholder
comment line, whatever the edges, metadata and options are. -/
theorem claim_empty_flowchart_scenario :
    ∀ (edges : List FlowEdge) (md : FlowchartMetadata)
      (opts : MermaidConversionOptions),
      validateFlowchartForMermaid [] edges =
        ⟨true, ["Flowchart is empty"], []⟩
      ∧ convertToMermaid [] edges md opts =
          (if opts.includeTitle && jsTruthy md.title then
            "---\ntitle: " ++ md.title.getD "" ++ "\n---\n"
              ++ ("flowchart " ++ opts.direction ++ "\n")
          else "flowchart " ++ opts.direction ++ "\n")
          ++ "    %% Empty flowchart\n" := by
  intro edges md opts
  exact ⟨rfl, rfl⟩

/-- C7: identifier sanitization maps every character outside the word
class to an underscore and prefixes the fixed literal when the result does
not start with a letter; the two example identifiers sanitize as stated;
every sanitized identifier starts with a letter; and both the node
definition line and the identifier lookup used for edge lines use exactly
this sanitized form. -/
theorem claim_identifier_sanitization :
    sanitizeNodeId "start-0" = "start_0"
    ∧ sanitizeNodeId "0node" = "node_0node"
    ∧ (∀ id : String,
        sanitizeNodeId id =
          (if ((id.data.map (fun c =>
                if c.isAlpha || c.isDigit || c == '_' then c else '_')).head?.map
                  Char.isAlpha).getD false then
            String.mk (id.data.map (fun c =>
              if c.isAlpha || c.isDigit || c == '_' then c else '_'))
          else "node_" ++ String.mk (id.data.map (fun c =>
              if c.isAlpha || c.isDigit || c == '_' then c else '_'))))
    ∧ (∀ id : String, ∃ c rest,
        (sanitizeNodeId id).data = c :: rest ∧ c.isAlpha = true)
    ∧ (∀ node : FlowNode, nodeDefinition node =
        "    " ++ sanitizeNodeId node.id
          ++ getMermaidShape node.type (getNodeLabel node))
    ∧ (∀ (nodes : List FlowNode) (id s : String),
        nodeIdLookup nodes id = some s → s = sanitizeNodeId id) := by
  refine ⟨by decide, by decide, fun id => rfl, sanitizeNodeId_head,
    fun node => rfl, ?_⟩
  intro nodes id s h
  unfold nodeIdLookup at h
  split at h
  · exact (Option.some.inj h).symm
  · cases h

/-- Witness for C7 at concrete inputs. -/
theorem claim_identifier_sanitization_witness :
    sanitizeNodeId "start-0" = "start_0"
    ∧ "a_b" = sanitizeNodeId "a-b" := by
  have h := claim_identifier_sanitization
  exact ⟨h.1, h.2.2.2.2.2 [⟨"a-b", none, ⟨none, none, none, none⟩⟩]
    "a-b" "a_b" (by decide)⟩

/-- Decision node whose yes-branch label contains a raw double quote. -/
def c1Decision : FlowNode :=
  ⟨"d", some "decisionNode", ⟨none, none, some "say \"hi\"", none⟩⟩

/-- Process node targeted by the decision branch. -/
def c1Process : FlowNode :=
  ⟨"p", some "processNode", ⟨some "P", none, none, none⟩⟩

/-- Node list of the escaping counterexample. -/
def c1Nodes : List FlowNode := [c1Decision, c1Process]

/-- Yes-branch edge of the escaping counterexample. -/
def c1Edge : FlowEdge := ⟨"d", "p", none, some "decision-yes"⟩

/-- C1 counterexample: a yes-branch label containing a double quote is
embedded in the emitted edge line verbatim, not through the escaping
transformation, so the emitted edge line contains a raw double quote. -/
theorem claim_label_escaping_counterexample :
    edgeLine c1Nodes c1Edge = some "    d -->|say \"hi\"| p\n"
    ∧ ((edgeLine c1Nodes c1Edge).getD "").data.contains quoteChar = true
    ∧ escapeLabel "say \"hi\"" = "say #quot;hi#quot;"
    ∧ edgeLine c1Nodes c1Edge ≠
        some ("    d -->|" ++ escapeLabel "say \"hi\"" ++ "| p\n")
    ∧ (convertToMermaid c1Nodes [c1Edge] {} {}).data.contains quoteChar
        = true := by
  exact ⟨by decide, by decide, by decide, by decide, by decide⟩

/-- C1 amended: the escaping transformation is applied to the own label of
an edge before embedding, and its output contains no raw quote, apostrophe,
newline or carriage return; a label resolved from the yesLabel or noLabel
attributes of a decision source node is embedded verbatim without the
escaping transformation. The own-label rule covers every edge whose source
does not resolve a decision branch label: an unresolved source node, a
non-decision source node, and a decision source node whose source handle
matches neither decision tag all fall through to the escaped own label;
a resolved decision branch label is never the empty string, so the
fall-through condition is exactly that no branch label was resolved. -/
theorem claim_label_escaping_amended :
    (∀ (s : String), ∀ c ∈ (escapeLabel s).data,
      c ≠ quoteChar ∧ c ≠ aposChar ∧ c ≠ '\n' ∧ c ≠ '\r')
    ∧ (∀ (nodes : List FlowNode) (edge : FlowEdge) (sId tId : String)
        (sn : FlowNode),
      nodes.find? (fun n => n.id == edge.source) = some sn →
      sn.type = some "decisionNode" →
      ∀ l, getDecisionEdgeLabel edge sn = some l → l ≠ "" →
      createMermaidConnection edge sId tId nodes =
        sId ++ " -->|" ++ l ++ "| " ++ tId)
    ∧ (∀ (nodes : List FlowNode) (edge : FlowEdge) (sId tId : String),
      (∀ sn, nodes.find? (fun n => n.id == edge.source) = some sn →
        sn.type = some "decisionNode" →
        getDecisionEdgeLabel edge sn = none) →
      jsTruthy edge.label = true →
      createMermaidConnection edge sId tId nodes =
        sId ++ " -->|" ++ escapeLabel (edge.label.getD "") ++ "| " ++ tId)
    ∧ (∀ (edge : FlowEdge) (sn : FlowNode),
      getDecisionEdgeLabel edge sn ≠ some "") := by
  refine ⟨fun s c h => escapeLabel_safe s c h, ?_, ?_, ?_⟩
  · intro nodes edge sId tId sn hfind htype l hl hne
    unfold createMermaidConnection
    rw [hfind]
    simp only [htype, beq_self_eq_true, if_true, hl]
    rw [if_pos (bne_iff_ne.mpr hne)]
  · intro nodes edge sId tId hfall ht
    unfold createMermaidConnection regularConnection
    rcases hfind : nodes.find? (fun n => n.id == edge.source) with _ | sn
    · simp only [hfind, ht, if_true]
    · by_cases hd : sn.type = some "decisionNode"
      · have hlab : getDecisionEdgeLabel edge sn = none := hfall sn hfind hd
        simp only [hfind, hd, beq_self_eq_true, if_true, hlab, ht]
      · have hbeq : (sn.type == some "decisionNode") = false :=
          beq_eq_false_iff_ne.mpr hd
        simp only [hfind, hbeq, Bool.false_eq_true, if_false, ht, if_true]
  · intro edge sn
    unfold getDecisionEdgeLabel
    split
    · intro h
      exact jsOr_ne_empty sn.data.yesLabel "Yes" (by decide)
        (Option.some.inj h)
    · split
      · intro h
        exact jsOr_ne_empty sn.data.noLabel "No" (by decide)
          (Option.some.inj h)
      · intro h
        exact Option.noConfusion h

/-- Witness for the amended C1 at concrete inputs: a decision branch label
with a raw quote embedded verbatim, an escaped own label on an edge out of
a non-decision node, and an escaped own label on an edge out of a decision
node whose source handle matches neither decision tag. -/
theorem claim_label_escaping_amended_witness :
    ((('q' : Char) ≠ quoteChar ∧ ('q' : Char) ≠ aposChar
        ∧ ('q' : Char) ≠ '\n' ∧ ('q' : Char) ≠ '\r')
    ∧ createMermaidConnection c1Edge "d" "p" c1Nodes =
        "d" ++ " -->|" ++ "say \"hi\"" ++ "| " ++ "p"
    ∧ createMermaidConnection ⟨"p", "d", some "x\ny", none⟩ "p" "d" c1Nodes =
        "p" ++ " -->|" ++ escapeLabel ((some "x\ny").getD "") ++ "| " ++ "d"
    ∧ createMermaidConnection ⟨"d", "p", some "a\"b", some "other"⟩ "d" "p"
        c1Nodes =
        "d" ++ " -->|" ++ escapeLabel ((some "a\"b").getD "") ++ "| " ++ "p"
    ∧ getDecisionEdgeLabel c1Edge c1Process ≠ some "") := by
  refine ⟨claim_label_escaping_amended.1 "\"q\"" 'q' (by decide),
    ?_, ?_, ?_, claim_label_escaping_amended.2.2.2 c1Edge c1Process⟩
  · have h := claim_label_escaping_amended.2.1 c1Nodes c1Edge "d" "p"
      c1Decision (by decide) (by decide) "say \"hi\"" (by decide) (by decide)
    exact h
  · refine claim_label_escaping_amended.2.2.1 c1Nodes
      ⟨"p", "d", some "x\ny", none⟩ "p" "d" ?_ (by decide)
    intro sn h hd
    have hfd : c1Nodes.find? (fun n =>
        n.id == (⟨"p", "d", some "x\ny", none⟩ : FlowEdge).source) =
        some c1Process := by decide
    have hs : c1Process = sn := Option.some.inj (hfd.symm.trans h)
    subst hs
    decide
  · refine claim_label_escaping_amended.2.2.1 c1Nodes
      ⟨"d", "p", some "a\"b", some "other"⟩ "d" "p" ?_ (by decide)
    intro sn h hd
    have hfd : c1Nodes.find? (fun n =>
        n.id == (⟨"d", "p", some "a\"b", some "other"⟩ : FlowEdge).source) =
        some c1Decision := by decide
    have hs : c1Decision = sn := Option.some.inj (hfd.symm.trans h)
    subst hs
    decide

/-- Decision node of the branch-labeling scenario. -/
def c4Decision : FlowNode :=
  ⟨"d1", some "decisionNode", ⟨none, none, some "Proceed", some "Stop"⟩⟩

/-- First process node of the branch-labeling scenario. -/
def c4P1 : FlowNode := ⟨"p1", some "processNode", ⟨some "A", none, none, none⟩⟩

/-- Second process node of the branch-labeling scenario. -/
def c4P2 : FlowNode := ⟨"p2", some "processNode", ⟨some "B", none, none, none⟩⟩

/-- Node list of the branch-labeling scenario. -/
def c4Nodes : List FlowNode := [c4Decision, c4P1, c4P2]

/-- Yes edge of the branch-labeling scenario. -/
def c4YesEdge : FlowEdge := ⟨"d1", "p1", none, some "decision-yes"⟩

/-- No edge of the branch-labeling scenario. -/
def c4NoEdge : FlowEdge := ⟨"d1", "p2", none, some "decision-no"⟩

/-- Transpiled output of the branch-labeling scenario. -/
def c4Output : String := convertToMermaid c4Nodes [c4YesEdge, c4NoEdge] {} {}

/-- C4: an edge out of a decision node takes the yesLabel of the source
when its source handle is the yes tag, the noLabel when it is the no tag,
and falls through to the regular connection rule otherwise; in the example
scenario the output contains the Proceed and Stop labels exactly once each,
each followed by the correct sanitized target identifier. -/
theorem claim_decision_branch_labeling :
    (∀ (nodes : List FlowNode) (edge : FlowEdge) (sId tId : String)
        (sn : FlowNode),
      nodes.find? (fun n => n.id == edge.source) = some sn →
      sn.type = some "decisionNode" →
      (edge.sourceHandle = some "decision-yes" →
        createMermaidConnection edge sId tId nodes =
          sId ++ " -->|" ++ jsOr sn.data.yesLabel "Yes" ++ "| " ++ tId)
      ∧ (edge.sourceHandle = some "decision-no" →
        createMermaidConnection edge sId tId nodes =
          sId ++ " -->|" ++ jsOr sn.data.noLabel "No" ++ "| " ++ tId)
      ∧ (edge.sourceHandle ≠ some "decision-yes" →
         edge.sourceHandle ≠ some "decision-no" →
        createMermaidConnection edge sId tId nodes =
          regularConnection edge sId tId))
    ∧ countOcc "-->|Proceed|".data c4Output.data = 1
    ∧ countOcc ("-->|Proceed| " ++ sanitizeNodeId "p1").data c4Output.data = 1
    ∧ countOcc "-->|Stop|".data c4Output.data = 1
    ∧ countOcc ("-->|Stop| " ++ sanitizeNodeId "p2").data c4Output.data = 1 := by
  refine ⟨?_, by decide, by decide, by decide, by decide⟩
  intro nodes edge sId tId sn hfind htype
  unfold createMermaidConnection getDecisionEdgeLabel
  rw [hfind]
  simp only [htype, beq_self_eq_true, if_true]
  refine ⟨?_, ?_, ?_⟩
  · intro hyes
    simp only [hyes, beq_self_eq_true, if_true]
    rw [if_pos (bne_iff_ne.mpr (jsOr_ne_empty _ "Yes" (by decide)))]
  · intro hno
    have hneq : ((some "decision-no" : Option String)
        == some "decision-yes") = false := by decide
    simp only [hno, hneq, Bool.false_eq_true, if_false,
      beq_self_eq_true, if_true]
    rw [if_pos (bne_iff_ne.mpr (jsOr_ne_empty _ "No" (by decide)))]
  · intro hny hnn
    rw [if_neg (by simpa using hny), if_neg (by simpa using hnn)]

/-- Witness for C4 at concrete inputs. -/
theorem claim_decision_branch_labeling_witness :
    createMermaidConnection c4YesEdge "d1" "p1" c4Nodes =
      "d1" ++ " -->|" ++ jsOr (some "Proceed") "Yes" ++ "| " ++ "p1" := by
  exact ((claim_decision_branch_labeling.1 c4Nodes c4YesEdge "d1" "p1"
    c4Decision (by decide) (by decide)).1 (by decide))

/-- C5: an edge whose source or target identifier matches no node yields
no emitted line; an edge whose two endpoints both resolve is emitted with
its connection string; and for a non-empty graph the transpiled output
embeds exactly the join of the surviving edge lines after the separator. -/
theorem claim_dangling_edge_exclusion :
    (∀ (nodes : List FlowNode) (edge : FlowEdge),
      ((¬ ∃ n ∈ nodes, n.id = edge.source)
        ∨ (¬ ∃ n ∈ nodes, n.id = edge.target)) →
      edgeLine nodes edge = none)
    ∧ (∀ (nodes : List FlowNode) (edge : FlowEdge),
      (∃ n ∈ nodes, n.id = edge.source) →
      (∃ n ∈ nodes, n.id = edge.target) →
      edgeLine nodes edge = some ("    " ++ createMermaidConnection edge
        (sanitizeNodeId edge.source) (sanitizeNodeId edge.target) nodes
        ++ "\n"))
    ∧ (∀ (nodes : List FlowNode) (edges : List FlowEdge)
        (md : FlowchartMetadata) (opts : MermaidConversionOptions),
      nodes ≠ [] → edges ≠ [] →
      ∃ pre post, convertToMermaid nodes edges md opts =
        pre ++ ("\n" ++ String.join (edges.filterMap (edgeLine nodes)))
          ++ post) := by
  refine ⟨?_, ?_, ?_⟩
  · intro nodes edge h
    rcases h with h | h
    · have hs : nodes.any (fun n => n.id == edge.source) = false := by
        rw [List.any_eq_false]
        intro n hn
        simp only [beq_iff_eq]
        exact fun he => h ⟨n, hn, he⟩
      simp only [edgeLine, jsTruthy_nodeIdLookup, hs, Bool.false_and,
        Bool.false_eq_true, if_false]
    · have ht : nodes.any (fun n => n.id == edge.target) = false := by
        rw [List.any_eq_false]
        intro n hn
        simp only [beq_iff_eq]
        exact fun he => h ⟨n, hn, he⟩
      simp only [edgeLine, jsTruthy_nodeIdLookup, ht, Bool.and_false,
        Bool.false_eq_true, if_false]
  · intro nodes edge hs ht
    obtain ⟨ns, hns, hes⟩ := hs
    obtain ⟨nt, hnt, het⟩ := ht
    have hs2 : nodes.any (fun n => n.id == edge.source) = true :=
      List.any_eq_true.mpr ⟨ns, hns, beq_iff_eq.mpr hes⟩
    have ht2 : nodes.any (fun n => n.id == edge.target) = true :=
      List.any_eq_true.mpr ⟨nt, hnt, beq_iff_eq.mpr het⟩
    have b1 : jsTruthy (nodeIdLookup nodes edge.source) = true := by
      rw [jsTruthy_nodeIdLookup]
      exact hs2
    have b2 : jsTruthy (nodeIdLookup nodes edge.target) = true := by
      rw [jsTruthy_nodeIdLookup]
      exact ht2
    have g1 : nodeIdLookup nodes edge.source =
        some (sanitizeNodeId edge.source) := by
      unfold nodeIdLookup
      rw [if_pos hs2]
    have g2 : nodeIdLookup nodes edge.target =
        some (sanitizeNodeId edge.target) := by
      unfold nodeIdLookup
      rw [if_pos ht2]
    simp only [edgeLine, b1, b2, Bool.and_self, if_true, g1, g2,
      Option.getD_some]
    simp [jsTruthy, sanitizeNodeId_ne_empty]
  · intro nodes edges md opts h he
    refine ⟨(if opts.includeTitle && jsTruthy md.title then
        "---\ntitle: " ++ md.title.getD "" ++ "\n---\n"
          ++ ("flowchart " ++ opts.direction ++ "\n")
      else "flowchart " ++ opts.direction ++ "\n")
      ++ String.join ((nodeDefinitions nodes).map (fun d => d ++ "\n")),
      (if opts.includeDescription && jsTruthy md.description then
        "\n    %% " ++ md.description.getD "" ++ "\n"
      else "")
      ++ (if jsTruthy opts.theme then themeDirective (opts.theme.getD "")
          else ""), ?_⟩
    have hlen : edges.length > 0 := List.length_pos.mpr he
    rw [convertToMermaid_structure nodes edges md opts h, if_pos hlen]
    simp [String.append_assoc]

/-- Witness for C5 at concrete inputs. -/
theorem claim_dangling_edge_exclusion_witness :
    edgeLine [⟨"a", some "processNode", ⟨some "A", none, none, none⟩⟩]
      ⟨"a", "ghost", none, none⟩ = none
    ∧ edgeLine [⟨"a", some "processNode", ⟨some "A", none, none, none⟩⟩]
      ⟨"a", "a", some "loop", none⟩ = some ("    "
        ++ createMermaidConnection ⟨"a", "a", some "loop", none⟩
          (sanitizeNodeId "a") (sanitizeNodeId "a")
          [⟨"a", some "processNode", ⟨some "A", none, none, none⟩⟩]
        ++ "\n") := by
  constructor
  · exact claim_dangling_edge_exclusion.1
      [⟨"a", some "processNode", ⟨some "A", none, none, none⟩⟩]
      ⟨"a", "ghost", none, none⟩ (Or.inr (by decide))
  · exact claim_dangling_edge_exclusion.2.1
      [⟨"a", some "processNode", ⟨some "A", none, none, none⟩⟩]
      ⟨"a", "a", some "loop", none⟩ (by decide) (by decide)

/-- C8: for a non-empty node sequence the blank separator line and the
edge block appear exactly when the original edge sequence is non-empty;
when every edge is dangling the separator is still emitted and is followed
by no edge line. -/
theorem claim_edge_block_separator :
    (∀ (nodes : List FlowNode) (edges : List FlowEdge)
        (md : FlowchartMetadata) (opts : MermaidConversionOptions),
      nodes ≠ [] →
      convertToMermaid nodes edges md opts =
        (if opts.includeTitle && jsTruthy md.title then
          "---\ntitle: " ++ md.title.getD "" ++ "\n---\n"
            ++ ("flowchart " ++ opts.direction ++ "\n")
        else "flowchart " ++ opts.direction ++ "\n")
        ++ String.join ((nodeDefinitions nodes).map (fun d => d ++ "\n"))
        ++ (if edges.length > 0 then
              "\n" ++ String.join (edges.filterMap (edgeLine nodes))
            else "")
        ++ (if opts.includeDescription && jsTruthy md.description then
              "\n    %% " ++ md.description.getD "" ++ "\n"
            else "")
        ++ (if jsTruthy opts.theme then themeDirective (opts.theme.getD "")
            else ""))
    ∧ convertToMermaid
        [⟨"a", some "processNode", ⟨some "A", none, none, none⟩⟩]
        [⟨"x", "ghost", none, none⟩] {} {} = "flowchart TD\n    a[A]\n\n"
    ∧ ([⟨"x", "ghost", none, none⟩] : List FlowEdge).filterMap
        (edgeLine [⟨"a", some "processNode", ⟨some "A", none, none, none⟩⟩])
        = [] := by
  exact ⟨convertToMermaid_structure, by decide, by decide⟩

/-- Witness for C8 at concrete inputs. -/
theorem claim_edge_block_separator_witness :
    convertToMermaid [⟨"b", some "processNode", ⟨some "B", none, none, none⟩⟩]
      [] {} {} = "flowchart TD\n    b[B]\n" := by
  have h := claim_edge_block_separator.1
    [⟨"b", some "processNode", ⟨some "B", none, none, none⟩⟩] [] {} {}
    (by decide)
  exact h.trans (by decide)

/-- C9: the connected set of the validator is built from every edge
endpoint including dangling ones, so a node referenced only by a dangling
edge is never counted as disconnected and draws no disconnected warning,
although the transpiler drops that edge and renders the node without any
connection. -/
theorem claim_validator_counts_dangling_references :
    (∀ (nodes : List FlowNode) (edges : List FlowEdge) (node : FlowNode),
      node ∈ nodes →
      (∃ e ∈ edges, node.id = e.source ∨ node.id = e.target) →
      node ∉ disconnectedNodes nodes edges)
    ∧ (validateFlowchartForMermaid
        [⟨"a", some "processNode", ⟨some "A", none, none, none⟩⟩]
        [⟨"a", "ghost", none, none⟩]).warnings = []
    ∧ edgeLine [⟨"a", some "processNode", ⟨some "A", none, none, none⟩⟩]
        ⟨"a", "ghost", none, none⟩ = none
    ∧ convertToMermaid
        [⟨"a", some "processNode", ⟨some "A", none, none, none⟩⟩]
        [⟨"a", "ghost", none, none⟩] {} {} = "flowchart TD\n    a[A]\n\n" := by
  refine ⟨?_, by decide, by decide, by decide⟩
  intro nodes edges node hmem hex
  unfold disconnectedNodes
  intro hc
  rw [List.mem_filter] at hc
  obtain ⟨-, hp⟩ := hc
  have hm : node.id ∈ connectedNodeIds edges :=
    (mem_connectedNodeIds edges node.id).mpr hex
  have hcon : (connectedNodeIds edges).contains node.id = true := by
    simp [List.contains, List.elem_iff, hm]
  rw [hcon] at hp
  cases hp

/-- Witness for C9 at concrete inputs. -/
theorem claim_validator_counts_dangling_references_witness :
    (⟨"a", some "processNode", ⟨some "A", none, none, none⟩⟩ : FlowNode) ∉
      disconnectedNodes
        [⟨"a", some "processNode", ⟨some "A", none, none, none⟩⟩]
        [⟨"a", "ghost", none, none⟩] := by
  exact claim_validator_counts_dangling_references.1
    [⟨"a", some "processNode", ⟨some "A", none, none, none⟩⟩]
    [⟨"a", "ghost", none, none⟩]
    ⟨"a", some "processNode", ⟨some "A", none, none, none⟩⟩
    (by decide) ⟨⟨"a", "ghost", none, none⟩, by decide, Or.inl rfl⟩

/-- C10: the metadata title, the metadata description and the theme string
are inserted into the output verbatim, with no escaping transformation;
in the concrete example a description containing a newline leaves only its
first line on the comment line. -/
theorem claim_metadata_verbatim :
    (∀ (nodes : List FlowNode) (edges : List FlowEdge)
        (md : FlowchartMetadata) (opts : MermaidConversionOptions),
      opts.includeTitle = true → jsTruthy md.title = true →
      ∃ rest, convertToMermaid nodes edges md opts =
        "---\ntitle: " ++ md.title.getD "" ++ "\n---\n" ++ rest)
    ∧ (∀ (nodes : List FlowNode) (edges : List FlowEdge)
        (md : FlowchartMetadata) (opts : MermaidConversionOptions),
      nodes ≠ [] → opts.includeDescription = true →
      jsTruthy md.description = true →
      ∃ pre, convertToMermaid nodes edges md opts =
        pre ++ ("\n    %% " ++ md.description.getD "" ++ "\n")
          ++ (if jsTruthy opts.theme then themeDirective (opts.theme.getD "")
              else ""))
    ∧ (∀ (nodes : List FlowNode) (edges : List FlowEdge)
        (md : FlowchartMetadata) (opts : MermaidConversionOptions),
      nodes ≠ [] → jsTruthy opts.theme = true →
      ∃ pre, convertToMermaid nodes edges md opts =
        pre ++ themeDirective (opts.theme.getD ""))
    ∧ convertToMermaid
        [⟨"a", some "processNode", ⟨some "A", none, none, none⟩⟩] []
        ⟨none, some "first\nsecond"⟩ {} =
        "flowchart TD\n    a[A]\n\n    %% first\nsecond\n"
    ∧ countOcc ("    %% first" ++ "\n").data (convertToMermaid
        [⟨"a", some "processNode", ⟨some "A", none, none, none⟩⟩] []
        ⟨none, some "first\nsecond"⟩ {}).data = 1 := by
  refine ⟨?_, ?_, ?_, by decide, by decide⟩
  · intro nodes edges md opts hT htitle
    by_cases h : nodes = []
    · subst h
      refine ⟨("flowchart " ++ opts.direction ++ "\n")
        ++ "    %% Empty flowchart\n", ?_⟩
      have hc : convertToMermaid [] edges md opts =
          (if opts.includeTitle && jsTruthy md.title then
            "---\ntitle: " ++ md.title.getD "" ++ "\n---\n"
              ++ ("flowchart " ++ opts.direction ++ "\n")
          else "flowchart " ++ opts.direction ++ "\n")
          ++ "    %% Empty flowchart\n" := rfl
      rw [hc, hT, htitle]
      simp [String.append_assoc]
    · refine ⟨("flowchart " ++ opts.direction ++ "\n")
        ++ (String.join ((nodeDefinitions nodes).map (fun d => d ++ "\n"))
        ++ ((if edges.length > 0 then
              "\n" ++ String.join (edges.filterMap (edgeLine nodes))
            else "")
        ++ ((if opts.includeDescription && jsTruthy md.description then
              "\n    %% " ++ md.description.getD "" ++ "\n"
            else "")
        ++ (if jsTruthy opts.theme then themeDirective (opts.theme.getD "")
            else "")))), ?_⟩
      rw [convertToMermaid_structure nodes edges md opts h, hT, htitle]
      simp [String.append_assoc]
  · intro nodes edges md opts h hD hdesc
    refine ⟨(if opts.includeTitle && jsTruthy md.title then
        "---\ntitle: " ++ md.title.getD "" ++ "\n---\n"
          ++ ("flowchart " ++ opts.direction ++ "\n")
      else "flowchart " ++ opts.direction ++ "\n")
      ++ String.join ((nodeDefinitions nodes).map (fun d => d ++ "\n"))
      ++ (if edges.length > 0 then
            "\n" ++ String.join (edges.filterMap (edgeLine nodes))
          else ""), ?_⟩
    rw [convertToMermaid_structure nodes edges md opts h, hD, hdesc]
    simp [String.append_assoc]
  · intro nodes edges md opts h htheme
    refine ⟨(if opts.includeTitle && jsTruthy md.title then
        "---\ntitle: " ++ md.title.getD "" ++ "\n---\n"
          ++ ("flowchart " ++ opts.direction ++ "\n")
      else "flowchart " ++ opts.direction ++ "\n")
      ++ String.join ((nodeDefinitions nodes).map (fun d => d ++ "\n"))
      ++ (if edges.length > 0 then
            "\n" ++ String.join (edges.filterMap (edgeLine nodes))
          else "")
      ++ (if opts.includeDescription && jsTruthy md.description then
            "\n    %% " ++ md.description.getD "" ++ "\n"
          else ""), ?_⟩
    rw [convertToMermaid_structure nodes edges md opts h, htheme]
    simp [String.append_assoc]

/-- Witness for C10 at concrete inputs. -/
theorem claim_metadata_verbatim_witness :
    (∃ rest, convertToMermaid [] [] ⟨some "T", none⟩ {} =
      "---\ntitle: " ++ (some "T" : Option String).getD "" ++ "\n---\n"
        ++ rest)
    ∧ (∃ pre, convertToMermaid
        [⟨"a", some "processNode", ⟨some "A", none, none, none⟩⟩] []
        ⟨none, none⟩ ⟨true, true, "TD", some "dark"⟩ =
        pre ++ themeDirective ((some "dark" : Option String).getD "")) := by
  constructor
  · exact claim_metadata_verbatim.1 [] [] ⟨some "T", none⟩ {} rfl (by decide)
  · exact claim_metadata_verbatim.2.2.1
      [⟨"a", some "processNode", ⟨some "A", none, none, none⟩⟩] []
      ⟨none, none⟩ ⟨true, true, "TD", some "dark"⟩ (by decide) (by decide)

/-- Witness for C2 at a concrete node. -/
theorem claim_label_resolution_consistency_witness :
    getNodeLabel ⟨"x", some "decisionNode", ⟨none, none, none, none⟩⟩ =
      specResolveLabel ⟨"x", some "decisionNode", ⟨none, none, none, none⟩⟩ :=
  (claim_label_resolution_consistency
    ⟨"x", some "decisionNode", ⟨none, none, none, none⟩⟩).1

/-- Witness for C3 at concrete inputs. -/
theorem claim_validator_report_order_witness :
    (validateFlowchartForMermaid [] []).isValid = true ↔
      (validateFlowchartForMermaid [] []).errors = [] :=
  (claim_validator_report_order [] []).2.1

/-- Witness for C6 at concrete inputs. -/
theorem claim_empty_flowchart_scenario_witness :
    validateFlowchartForMermaid [] [] = ⟨true, ["Flowchart is empty"], []⟩ :=
  (claim_empty_flowchart_scenario [] {} {}).1

end Flowchart
